import Mathlib

/-!
Verification of the Jira MCP agent evaluation core: the dot-notation path
resolver and validation evaluator (`src/data/dataset_entities/state_validation.py`),
the validation/eval runner (`src/evals/eval_runner.py`), and the trajectory
reconstructor (`src/evals/trajectory.py` and `src/agent.py`), shallowly
embedded in Lean.
-/

/-- JSON-like value trees, as produced by `json.loads` on tool responses.
Numbers are modelled as integers (no claim depends on float arithmetic);
mappings are association lists with string keys (Python dicts preserve
insertion order). Python's `None` (JSON `null`) is `Value.null`. -/
inductive Value where
  | null
  | bool (b : Bool)
  | int (n : Int)
  | str (s : String)
  | arr (xs : List Value)
  | obj (kvs : List (String × Value))

mutual

/-- Structural (Python `==`/`!=`) equality on value trees, decidably. -/
def Value.decEq : (a b : Value) → Decidable (a = b)
  | .null, .null => isTrue rfl
  | .bool a, .bool b =>
    match Bool.decEq a b with
    | isTrue h => isTrue (h ▸ rfl)
    | isFalse h => isFalse (fun he => h (by injection he))
  | .int a, .int b =>
    match Int.decEq a b with
    | isTrue h => isTrue (h ▸ rfl)
    | isFalse h => isFalse (fun he => h (by injection he))
  | .str a, .str b =>
    match String.decEq a b with
    | isTrue h => isTrue (h ▸ rfl)
    | isFalse h => isFalse (fun he => h (by injection he))
  | .arr xs, .arr ys =>
    match Value.decEqList xs ys with
    | isTrue h => isTrue (h ▸ rfl)
    | isFalse h => isFalse (fun he => h (by injection he))
  | .obj xs, .obj ys =>
    match Value.decEqKV xs ys with
    | isTrue h => isTrue (h ▸ rfl)
    | isFalse h => isFalse (fun he => h (by injection he))
  | .null, .bool _ => isFalse (fun h => Value.noConfusion h)
  | .null, .int _ => isFalse (fun h => Value.noConfusion h)
  | .null, .str _ => isFalse (fun h => Value.noConfusion h)
  | .null, .arr _ => isFalse (fun h => Value.noConfusion h)
  | .null, .obj _ => isFalse (fun h => Value.noConfusion h)
  | .bool _, .null => isFalse (fun h => Value.noConfusion h)
  | .bool _, .int _ => isFalse (fun h => Value.noConfusion h)
  | .bool _, .str _ => isFalse (fun h => Value.noConfusion h)
  | .bool _, .arr _ => isFalse (fun h => Value.noConfusion h)
  | .bool _, .obj _ => isFalse (fun h => Value.noConfusion h)
  | .int _, .null => isFalse (fun h => Value.noConfusion h)
  | .int _, .bool _ => isFalse (fun h => Value.noConfusion h)
  | .int _, .str _ => isFalse (fun h => Value.noConfusion h)
  | .int _, .arr _ => isFalse (fun h => Value.noConfusion h)
  | .int _, .obj _ => isFalse (fun h => Value.noConfusion h)
  | .str _, .null => isFalse (fun h => Value.noConfusion h)
  | .str _, .bool _ => isFalse (fun h => Value.noConfusion h)
  | .str _, .int _ => isFalse (fun h => Value.noConfusion h)
  | .str _, .arr _ => isFalse (fun h => Value.noConfusion h)
  | .str _, .obj _ => isFalse (fun h => Value.noConfusion h)
  | .arr _, .null => isFalse (fun h => Value.noConfusion h)
  | .arr _, .bool _ => isFalse (fun h => Value.noConfusion h)
  | .arr _, .int _ => isFalse (fun h => Value.noConfusion h)
  | .arr _, .str _ => isFalse (fun h => Value.noConfusion h)
  | .arr _, .obj _ => isFalse (fun h => Value.noConfusion h)
  | .obj _, .null => isFalse (fun h => Value.noConfusion h)
  | .obj _, .bool _ => isFalse (fun h => Value.noConfusion h)
  | .obj _, .int _ => isFalse (fun h => Value.noConfusion h)
  | .obj _, .str _ => isFalse (fun h => Value.noConfusion h)
  | .obj _, .arr _ => isFalse (fun h => Value.noConfusion h)

def Value.decEqList : (xs ys : List Value) → Decidable (xs = ys)
  | [], [] => isTrue rfl
  | [], _ :: _ => isFalse (fun h => List.noConfusion h)
  | _ :: _, [] => isFalse (fun h => List.noConfusion h)
  | x :: xs, y :: ys =>
    match Value.decEq x y with
    | isFalse h => isFalse (fun he => h (by injection he))
    | isTrue h1 =>
      match Value.decEqList xs ys with
      | isTrue h2 => isTrue (h1 ▸ h2 ▸ rfl)
      | isFalse h => isFalse (fun he => h (by injection he))

def Value.decEqKV : (xs ys : List (String × Value)) → Decidable (xs = ys)
  | [], [] => isTrue rfl
  | [], _ :: _ => isFalse (fun h => List.noConfusion h)
  | _ :: _, [] => isFalse (fun h => List.noConfusion h)
  | (k1, v1) :: xs, (k2, v2) :: ys =>
    match String.decEq k1 k2 with
    | isFalse h => isFalse (fun he => by injection he with h1 h2; exact h (congrArg Prod.fst h1))
    | isTrue hk =>
      match Value.decEq v1 v2 with
      | isFalse h => isFalse (fun he => by injection he with h1 h2; exact h (congrArg Prod.snd h1))
      | isTrue hv =>
        match Value.decEqKV xs ys with
        | isTrue ht => isTrue (hk ▸ hv ▸ ht ▸ rfl)
        | isFalse h => isFalse (fun he => h (by injection he))

end

instance : DecidableEq Value := Value.decEq

/-- Python `str.isdigit()` (restricted to ASCII strings): nonempty and every
character a decimal digit. -/
def pyIsDigit (s : String) : Bool :=
  !s.data.isEmpty && s.data.all Char.isDigit

/-- Python `int(part)` on a string of decimal digits. -/
def pyInt (s : String) : Nat :=
  s.data.foldl (fun n c => n * 10 + (c.toNat - 48)) 0

/-- Python `str.split(sep)` for a single-character separator, over the
character list of the string: `"".split(".") == [""]`,
`"a..b".split(".") == ["a", "", "b"]`. -/
def pySplit (sep : Char) : List Char → List String
  | [] => [String.mk []]
  | c :: rest =>
    let r := pySplit sep rest
    if c = sep then String.mk [] :: r
    else
      match r with
      | s :: tail => String.mk (c :: s.data) :: tail
      | [] => [String.mk [c]]

/-- Python dict membership test and lookup `part in current` /
`current[part]` on an association list (first matching key). -/
def lookupKey (kvs : List (String × Value)) (k : String) : Option Value :=
  match kvs with
  | [] => none
  | (k2, v) :: rest => if k2 == k then some v else lookupKey rest k

/-- The segment-walking loop of `ApiCallValidation._get_nested_value`
(state_validation.py lines 89-106), over the already-split path segments.
Per segment: an all-digits segment requires the current node to be a
sequence and indexes it (absent on out-of-bounds or non-sequence); any
other segment requires a mapping containing that key (absent on missing
key or non-mapping). The Python code signals absence by returning `None`,
i.e. `Value.null`. -/
def getNested : Value → List String → Value
  | current, [] => current
  | current, part :: rest =>
    if pyIsDigit part then
      match current with
      | .arr xs =>
        match xs[pyInt part]? with
        | some x => getNested x rest
        | none => .null
      | _ => .null
    else
      match current with
      | .obj kvs =>
        match lookupKey kvs part with
        | some v => getNested v rest
        | none => .null
      | _ => .null

/-- `ApiCallValidation._get_nested_value(data, path)`: split `path` on `"."`
and walk the tree; returns the value at the path, or `None` (= `Value.null`)
if any part of the path is not found. -/
def get_nested_value (data : Value) (path : String) : Value :=
  getNested data (pySplit '.' path.data)

/-- `ApiCallValidation` (state_validation.py lines 18-39): the declarative
spec of one validation call. `expected_fields` maps field paths to expected
values; `expected_field_presence` lists paths that should exist. Both are
`Optional` in the source. -/
structure ApiCallValidation where
  tool_name : String
  arguments : List (String × Value)
  expected_fields : Option (List (String × Value))
  expected_field_presence : Option (List String)
deriving DecidableEq

/-- The `expected_fields` loop of `validate_response` (lines 59-63):
return `False` as soon as one resolved value differs (Python `!=`,
structural equality) from the expected value. -/
def fieldsLoop (response : Value) : List (String × Value) → Bool
  | [] => true
  | (field_path, expected_value) :: rest =>
    let actual_value := get_nested_value response field_path
    if actual_value ≠ expected_value then false else fieldsLoop response rest

/-- The `expected_field_presence` loop of `validate_response` (lines 66-69):
return `False` as soon as one path resolves to `None` (= `Value.null`). -/
def presenceLoop (response : Value) : List String → Bool
  | [] => true
  | field_path :: rest =>
    if get_nested_value response field_path = Value.null then false
    else presenceLoop response rest

/-- `ApiCallValidation.validate_response` (lines 42-71). The source guards
each loop with `if self.expected_fields:` / `if self.expected_field_presence:`,
which skips the loop when the field is `None` (or empty — looping over an
empty collection is equivalent to skipping it). -/
def ApiCallValidation.validate_response (self : ApiCallValidation)
    (response : Value) : Bool :=
  let fieldsOk :=
    match self.expected_fields with
    | some fs => fieldsLoop response fs
    | none => true
  if !fieldsOk then false
  else
    match self.expected_field_presence with
    | some ps => presenceLoop response ps
    | none => true

/-- `StateValidationConfig` (state_validation.py lines 109-139): an ordered
list of validation calls plus the `fail_fast` flag, documented in the source
as "If True, stop validation on first failure". -/
structure StateValidationConfig where
  state_validation_calls : List ApiCallValidation := []
  fail_fast : Bool := false
deriving DecidableEq

/-- The external tool invocation of one validation call:
`mcp_server.call_tool(...)` plus `json.loads` decoding of its text content
(eval_runner.py lines 21-26). `Except.error` models a raised exception
(transport / collaborator failure). -/
def ToolCaller : Type :=
  String → List (String × Value) → Except Unit Value

/-- The validation loop of `run_single_eval` (eval_runner.py lines 19-34),
with its observable effects: the list of tool calls invoked through the
caller, in declared order, and whether an exception escaped the loop
(aborting the remaining calls). A raised call is recorded in the trace (it
was invoked) and stops the loop, since the source has no `try`/`except`
here. When a call succeeds, its verdict `is_valid` is computed; the
`fail_fast` branch in the source only prints and `pass`es
(`## TODO: Handle fail fast logic`), so both branches continue with the
remaining calls identically. -/
def runValidationCalls (caller : ToolCaller) (fail_fast : Bool) :
    List ApiCallValidation → List (String × List (String × Value)) × Bool
  | [] => ([], false)
  | validation :: rest =>
    match caller validation.tool_name validation.arguments with
    | .error _ => ([(validation.tool_name, validation.arguments)], true)
    | .ok response =>
      let is_valid := validation.validate_response response
      let cont := runValidationCalls caller fail_fast rest
      if fail_fast && !is_valid then
        ((validation.tool_name, validation.arguments) :: cont.1, cont.2)
      else
        ((validation.tool_name, validation.arguments) :: cont.1, cont.2)

/-- `run_single_eval` restricted to its state-validation phase (the agent
run that precedes it is an external collaborator and does not influence the
validation loop). Returns the invoked-call trace and whether an exception
propagated out of `run_single_eval`. -/
def run_single_eval (caller : ToolCaller) (cfg : StateValidationConfig) :
    List (String × List (String × Value)) × Bool :=
  runValidationCalls caller cfg.fail_fast cfg.state_validation_calls

/-- One line of console output of the `run_evals` batch loop. -/
inductive EvalLogEntry where
  | header (i : Nat)
  | errorCaught (i : Nat)
deriving DecidableEq

/-- The batch loop of `run_evals` (eval_runner.py lines 44-55), as its
console log — the only per-case output the loop produces: for the `i`-th
case print a header, run the case, and on any exception print an error
line and `continue` with the next case. -/
def runEvalsLog {α : Type} (run1 : α → Except Unit Unit) :
    Nat → List α → List EvalLogEntry
  | _, [] => []
  | i, c :: rest =>
    match run1 c with
    | .ok _ => .header i :: runEvalsLog run1 (i + 1) rest
    | .error _ => .header i :: .errorCaught i :: runEvalsLog run1 (i + 1) rest

/-- `run_evals` as observed through its console log, starting at case 0. -/
def run_evals {α : Type} (run1 : α → Except Unit Unit)
    (cases : List α) : List EvalLogEntry :=
  runEvalsLog run1 0 cases

/-- The value `run_evals` returns to its caller: the loop body either
completes a case or catches its exception and continues, and the Python
function has no `return` statement, so it falls off the end. -/
def run_evals_return {α : Type} (run1 : α → Except Unit Unit) :
    List α → Unit
  | [] => ()
  | c :: rest =>
    match run1 c with
    | .ok _ => run_evals_return run1 rest
    | .error _ => run_evals_return run1 rest

/-- One tool-invocation request part of an ADK event (external collaborator
data; every field may be missing). -/
structure FunctionCall where
  id : Option String := none
  name : Option String := none
  args : Option (List (String × Value)) := none
deriving DecidableEq

/-- One tool-invocation response part of an ADK event. -/
structure FunctionResponse where
  id : Option String := none
  name : Option String := none
  response : Option Value := none
deriving DecidableEq

/-- One content part of an ADK event (`google.genai.types.Part`): free
text, a tool-invocation request, or a tool-invocation response (any
combination of the three fields may be populated). Named `EventPart` here
because `Part` already exists in the ambient library. -/
structure EventPart where
  text : Option String := none
  function_call : Option FunctionCall := none
  function_response : Option FunctionResponse := none
deriving DecidableEq

/-- The content of an ADK event: an optional list of parts. -/
structure Content where
  parts : Option (List EventPart)
deriving DecidableEq

/-- An ADK execution event (external, opaque input to the reconstructor):
an author, a timestamp and optional content parts. -/
structure Event where
  author : String
  timestamp : Int
  content : Option Content := none
deriving DecidableEq

/-- The raw part list of an event, empty when content or parts are absent. -/
def Event.partList (e : Event) : List EventPart :=
  match e.content with
  | none => []
  | some content =>
    match content.parts with
    | none => []
    | some parts => parts

/-- ADK `Event.get_function_calls()`: the `function_call` payloads of the
event's parts, in order (empty when content/parts are absent). -/
def Event.get_function_calls (e : Event) : List FunctionCall :=
  e.partList.filterMap (fun part => part.function_call)

/-- ADK `Event.get_function_responses()`: the `function_response` payloads
of the event's parts, in order (empty when content/parts are absent). -/
def Event.get_function_responses (e : Event) : List FunctionResponse :=
  e.partList.filterMap (fun part => part.function_response)

/-- The role tag of a reconstructed message. -/
inductive Role where
  | user
  | assistant
  | tool
deriving DecidableEq

/-- `LlmToolCall` (trajectory.py lines 7-11). -/
structure LlmToolCall where
  call_id : Option String := none
  name : String
  args : List (String × Value)
deriving DecidableEq

/-- `ToolResult` (trajectory.py lines 14-19). -/
structure ToolResult where
  call_id : Option String := none
  name : String
  result_data : Value
  is_error : Bool := false
deriving DecidableEq

/-- `Message` (trajectory.py lines 22-30): one pydantic class with a role
tag and optional role-specific payload fields, all defaulting to `None`. -/
structure Message where
  timestamp : Int
  author : String
  role : Role
  user_text_input : Option String := none
  assistant_text_response : Option String := none
  assistant_tool_calls : Option (List LlmToolCall) := none
  tool_results : Option (List ToolResult) := none
deriving DecidableEq

/-- `Trajectory` (trajectory.py lines 33-35): an ordered list of messages. -/
structure Trajectory where
  messages : List Message
deriving DecidableEq

/-- `extract_text_from_parts` (trajectory.py lines 46-60) with its default
`exclude_function_parts=True` (every call site uses the default): the text
payloads of parts that carry text and no function call/response, in order.
A part's `text` counts as present text even when it is the empty string. -/
def extract_text_from_parts (event : Event) : List String :=
  event.partList.filterMap (fun part =>
    let has_text := part.text.isSome
    let is_function_part := part.function_call.isSome || part.function_response.isSome
    if has_text && !is_function_part then part.text else none)

/-- `process_user_message` (trajectory.py lines 63-77): only for events
authored by the literal `"user"` that carry at least one text part; the
message text is the concatenation (`"".join`) of all text parts. -/
def process_user_message (event : Event) : Option Message :=
  if event.author ≠ "user" then none
  else
    let text_parts := extract_text_from_parts event
    if text_parts.isEmpty then none
    else
      some { timestamp := event.timestamp, author := event.author,
             role := .user, user_text_input := some (String.join text_parts) }

/-- `create_tool_result` (trajectory.py lines 80-95): `None` when the
response part misses its name or its result body; otherwise a `ToolResult`
whose `is_error` is set iff the result body is a mapping containing an
`"error"` key. -/
def create_tool_result (function_response : FunctionResponse) : Option ToolResult :=
  match function_response.name, function_response.response with
  | some name, some resp =>
    let is_error :=
      match resp with
      | .obj kvs => (lookupKey kvs "error").isSome
      | _ => false
    some { call_id := function_response.id, name := name,
           result_data := resp, is_error := is_error }
  | _, _ => none

/-- `process_tool_responses` (trajectory.py lines 98-118): build one tool
message from the event's response parts, dropping malformed parts; emit no
message when there are no response parts or all of them are dropped. -/
def process_tool_responses (event : Event) : Option Message :=
  let function_responses := event.get_function_responses
  if function_responses.isEmpty then none
  else
    let tool_results := function_responses.filterMap create_tool_result
    if tool_results.isEmpty then none
    else
      some { timestamp := event.timestamp, author := event.author,
             role := .tool, tool_results := some tool_results }

/-- `create_tool_call` (trajectory.py lines 121-130): `None` when the call
part misses its name or its arguments. -/
def create_tool_call (function_call : FunctionCall) : Option LlmToolCall :=
  match function_call.name, function_call.args with
  | some name, some args =>
    some { call_id := function_call.id, name := name, args := args }
  | _, _ => none

/-- `process_assistant_message` (trajectory.py lines 133-158): only for
events not authored by `"user"`; emits a message when non-empty text or at
least one well-formed tool call exists (Python truthiness: both `None` and
the empty string `""` fail `if not (text_response or tool_calls)`). -/
def process_assistant_message (event : Event) : Option Message :=
  if event.author == "user" then none
  else
    let text_parts := extract_text_from_parts event
    let text_response : Option String :=
      if text_parts.isEmpty then none else some (String.join text_parts)
    let tool_calls := event.get_function_calls.filterMap create_tool_call
    let text_truthy :=
      match text_response with
      | some s => !s.isEmpty
      | none => false
    if !text_truthy && tool_calls.isEmpty then none
    else
      some { timestamp := event.timestamp, author := event.author,
             role := .assistant,
             assistant_text_response := text_response,
             assistant_tool_calls :=
               if tool_calls.isEmpty then none else some tool_calls }

/-- The body of the `parse_events_to_trajectory` loop (trajectory.py lines
165-178): append the event's user message, then its tool message, then its
assistant message to the accumulated list, when each is present. -/
def appendEventMessages (acc : List Message) (event : Event) : List Message :=
  let acc1 :=
    match process_user_message event with
    | some m => acc ++ [m]
    | none => acc
  let acc2 :=
    match process_tool_responses event with
    | some m => acc1 ++ [m]
    | none => acc1
  match process_assistant_message event with
  | some m => acc2 ++ [m]
  | none => acc2

/-- `parse_events_to_trajectory` (trajectory.py lines 161-180): the
accumulating loop over the events, starting from the empty message list. -/
def parse_events_to_trajectory (events : List Event) : Trajectory :=
  { messages := events.foldl appendEventMessages [] }

/-- The synthetic user message `JiraMcpAgent.run` builds from the submitted
prompt and the submission time (agent.py lines 82-88). -/
def synthetic_user_message (prompt : String) (timestamp_usr_msg : Int) : Message :=
  { timestamp := timestamp_usr_msg, author := "user", role := .user,
    user_text_input := some prompt }

/-- `JiraMcpAgent.run` (agent.py lines 64-100) after the external runner
produced the event stream: build the synthetic user message from the
submitted prompt, parse the events, and insert the synthetic message at
index 0 of the trajectory. -/
def JiraMcpAgent.run (prompt : String) (timestamp_usr_msg : Int)
    (events : List Event) : Trajectory :=
  let user_msg : Message := synthetic_user_message prompt timestamp_usr_msg
  let trajectory := parse_events_to_trajectory events
  { messages := user_msg :: trajectory.messages }

/-- The messages one event contributes to the trajectory, in emission
order: at most one user message, then at most one tool message, then at
most one assistant message. -/
def event_messages (event : Event) : List Message :=
  (process_user_message event).toList ++ (process_tool_responses event).toList
    ++ (process_assistant_message event).toList

/-- Whether a log entry is the per-case progress header of the batch loop. -/
def EvalLogEntry.isHeader : EvalLogEntry → Bool
  | .header _ => true
  | .errorCaught _ => false

/-- Whether a log entry records a caught per-case exception. -/
def EvalLogEntry.isErrorCaught : EvalLogEntry → Bool
  | .header _ => false
  | .errorCaught _ => true

/-- Modelled from the spec (§4.1): `P` points to `V` in `T` when walking
the dot-separated segments of `P` — all-digit segments as zero-based
sequence indices, other segments as literal mapping keys — ends at `V`.
Written from the spec's words, to be compared with the source's
`getNested` walker. -/
def pathPointsTo : Value → List String → Value → Bool
  | t, [], v => t == v
  | t, part :: rest, v =>
    if pyIsDigit part then
      match t with
      | .arr xs =>
        match xs[pyInt part]? with
        | some x => pathPointsTo x rest v
        | none => false
      | _ => false
    else
      match t with
      | .obj kvs =>
        match lookupKey kvs part with
        | some x => pathPointsTo x rest v
        | none => false
      | _ => false

/-- `pathPointsTo` on a dot-notation path string. -/
def pathPointsToStr (t : Value) (path : String) (v : Value) : Bool :=
  pathPointsTo t (pySplit '.' path.data) v

/-- The example response tree of spec §8:
`{"issues": [{"summary": "Discover prompt automation", "status": {"name": "To Do"}}]}`. -/
def exampleTree : Value :=
  .obj [("issues", .arr [.obj [("summary", .str "Discover prompt automation"),
                               ("status", .obj [("name", .str "To Do")])]])]

/-- A validation call named `n` expecting field `ok` to equal `true`
(fixture for concrete runner scenarios). -/
def sampleCall (n : String) : ApiCallValidation :=
  ⟨n, [], some [("ok", .bool true)], none⟩

/-- A three-call configuration with `fail_fast = true` (fixture). -/
def failFastConfig : StateValidationConfig :=
  { state_validation_calls := [sampleCall "t1", sampleCall "t2", sampleCall "t3"],
    fail_fast := true }

/-- A tool caller whose response makes the `"t2"` call fail validation and
every other call pass (fixture). -/
def failSecondCaller : ToolCaller := fun name _ =>
  .ok (if name == "t2" then .obj [("ok", .bool false)] else .obj [("ok", .bool true)])

/-- A tool caller that raises on `"t1"` and succeeds elsewhere (fixture). -/
def raiseFirstCaller : ToolCaller := fun name _ =>
  if name == "t1" then .error () else .ok (.obj [("ok", .bool true)])

/-- A tool caller that raises on `"t2"` and succeeds elsewhere (fixture). -/
def raiseSecondCaller : ToolCaller := fun name _ =>
  if name == "t2" then .error () else .ok (.obj [("ok", .bool true)])

/-- The tool-request part of the §8 reconstruction scenario (fixture). -/
def scenario_request : FunctionCall :=
  { name := some "jira_create",
    args := some [("summary", .str "Discover prompt automation")] }

/-- The tool-response part of the §8 reconstruction scenario (fixture). -/
def scenario_response : FunctionResponse :=
  { name := some "jira_create",
    response := some (.obj [("key", .str "MBA-1")]) }

/-- The four-event stream of the §8 reconstruction scenario: user text,
assistant tool request, tool response, assistant text (fixture). -/
def scenario_events : List Event :=
  [{ author := "user", timestamp := 1,
     content := some ⟨some [{ text := some "create issue" }]⟩ },
   { author := "JiraMCPAgent", timestamp := 2,
     content := some ⟨some [{ function_call := some scenario_request }]⟩ },
   { author := "JiraMCPAgent", timestamp := 3,
     content := some ⟨some [{ function_response := some scenario_response }]⟩ },
   { author := "JiraMCPAgent", timestamp := 4,
     content := some ⟨some [{ text := some "Created MBA-1" }]⟩ }]

/-- The five messages the §8 scenario must reconstruct to, in order:
synthetic user prompt, user, assistant (tool-call only), tool, assistant
(text only). -/
def scenario_expected : List Message :=
  [synthetic_user_message "create issue" 0,
   { timestamp := 1, author := "user", role := .user,
     user_text_input := some "create issue" },
   { timestamp := 2, author := "JiraMCPAgent", role := .assistant,
     assistant_tool_calls := some
       [{ name := "jira_create",
          args := [("summary", .str "Discover prompt automation")] }] },
   { timestamp := 3, author := "JiraMCPAgent", role := .tool,
     tool_results := some
       [{ name := "jira_create", result_data := .obj [("key", .str "MBA-1")] }] },
   { timestamp := 4, author := "JiraMCPAgent", role := .assistant,
     assistant_text_response := some "Created MBA-1" }]

/-- A tool-invocation response carrying a mapping with an `"error"` key
(fixture). -/
def errorResponse : FunctionResponse :=
  { name := some "jira_search", response := some (.obj [("error", .str "boom")]) }

/-- An event whose only tool-invocation response part is malformed: it has
a result body but no name (fixture). -/
def malformedResponseEvent : Event :=
  { author := "JiraMCPAgent", timestamp := 0,
    content := some ⟨some [{ function_response := some { response := some (.obj []) } }]⟩ }

/-- The `expected_fields` loop passes exactly when every declared entry
resolves to its expected value. -/
lemma fieldsLoop_eq_true_iff (r : Value) (l : List (String × Value)) :
    fieldsLoop r l = true ↔ ∀ pe ∈ l, get_nested_value r pe.1 = pe.2 := by
  induction l with
  | nil => simp [fieldsLoop]
  | cons pe rest ih =>
    obtain ⟨p, ev⟩ := pe
    by_cases h : get_nested_value r p = ev
    · simp [fieldsLoop, h, ih]
    · simp [fieldsLoop, h]

/-- The `expected_field_presence` loop passes exactly when no declared path
resolves to `None`. -/
lemma presenceLoop_eq_true_iff (r : Value) (l : List String) :
    presenceLoop r l = true ↔ ∀ p ∈ l, get_nested_value r p ≠ Value.null := by
  induction l with
  | nil => simp [presenceLoop]
  | cons p rest ih =>
    by_cases h : get_nested_value r p = Value.null
    · simp [presenceLoop, h]
    · simp [presenceLoop, h, ih]

/-- `validate_response` is the conjunction of its two loops. -/
lemma validate_response_eq_and (tool : String) (args : List (String × Value))
    (ef : Option (List (String × Value))) (efp : Option (List String)) (r : Value) :
    ApiCallValidation.validate_response ⟨tool, args, ef, efp⟩ r
      = ((match ef with | some fs => fieldsLoop r fs | none => true)
          && (match efp with | some ps => presenceLoop r ps | none => true)) := by
  unfold ApiCallValidation.validate_response
  cases ef with
  | none => simp
  | some fs => cases h : fieldsLoop r fs <;> simp [h]

/-- An association-list lookup succeeds exactly when the key occurs. -/
lemma lookupKey_isSome_iff (kvs : List (String × Value)) (k : String) :
    (lookupKey kvs k).isSome = true ↔ k ∈ kvs.map Prod.fst := by
  induction kvs with
  | nil => simp [lookupKey]
  | cons kv rest ih =>
    obtain ⟨k2, v⟩ := kv
    by_cases h : k2 = k
    · simp [lookupKey, h]
    · simp [lookupKey, h, ih, Ne.symm h]

/-- One step of the trajectory loop appends exactly the event's messages. -/
lemma appendEventMessages_eq (acc : List Message) (event : Event) :
    appendEventMessages acc event = acc ++ event_messages event := by
  unfold appendEventMessages event_messages
  cases process_user_message event <;> cases process_tool_responses event <;>
    cases process_assistant_message event <;> simp

/-- The trajectory loop is the flattened per-event message lists. -/
lemma foldl_appendEventMessages (events : List Event) :
    ∀ acc : List Message,
      events.foldl appendEventMessages acc
        = acc ++ (events.map event_messages).flatten := by
  induction events with
  | nil => intro acc; simp
  | cons e rest ih =>
    intro acc
    rw [List.foldl_cons, appendEventMessages_eq, ih]
    simp

/-- Walking spec-valid path segments with the source walker reaches the
value the spec says the path points to. -/
lemma getNested_of_pathPointsTo :
    ∀ (segs : List String) (t v : Value),
      pathPointsTo t segs v = true → getNested t segs = v := by
  intro segs
  induction segs with
  | nil =>
    intro t v h
    simp only [pathPointsTo] at h
    simp only [getNested]
    exact eq_of_beq h
  | cons part rest ih =>
    intro t v h
    cases hd : pyIsDigit part with
    | true =>
      cases t with
      | arr xs =>
        cases hxs : xs[pyInt part]? with
        | some x =>
          have h2 : pathPointsTo x rest v = true := by
            simpa [pathPointsTo, hd, hxs] using h
          have hg : getNested (Value.arr xs) (part :: rest) = getNested x rest := by
            simp [getNested, hd, hxs]
          rw [hg]
          exact ih x v h2
        | none => simp [pathPointsTo, hd, hxs] at h
      | null => simp [pathPointsTo, hd] at h
      | bool b => simp [pathPointsTo, hd] at h
      | int n => simp [pathPointsTo, hd] at h
      | str s => simp [pathPointsTo, hd] at h
      | obj kvs => simp [pathPointsTo, hd] at h
    | false =>
      cases t with
      | obj kvs =>
        cases hlk : lookupKey kvs part with
        | some x =>
          have h2 : pathPointsTo x rest v = true := by
            simpa [pathPointsTo, hd, hlk] using h
          have hg : getNested (Value.obj kvs) (part :: rest) = getNested x rest := by
            simp [getNested, hd, hlk]
          rw [hg]
          exact ih x v h2
        | none => simp [pathPointsTo, hd, hlk] at h
      | null => simp [pathPointsTo, hd] at h
      | bool b => simp [pathPointsTo, hd] at h
      | int n => simp [pathPointsTo, hd] at h
      | str s => simp [pathPointsTo, hd] at h
      | arr xs => simp [pathPointsTo, hd] at h

/-- C1: the claim says that with `fail_fast = true` a failing call stops
all later calls; evaluating the embedded `run_single_eval` at the failing
input shows otherwise. With the three-call `failFastConfig`
(`fail_fast = true`) and a caller under which call `"t2"` fails
validation, the invocation trace still contains all three calls — the
source's fail-fast branch only prints (`## TODO: Handle fail fast logic`),
contradicting the field's documented meaning ("If True, stop validation on
first failure") and the claim. Call #3 is invoked and no exception is
raised. -/
theorem c1_fail_fast_continues_after_failure :
    failFastConfig.fail_fast = true
    ∧ (sampleCall "t2").validate_response (.obj [("ok", .bool false)]) = false
    ∧ (run_single_eval failSecondCaller failFastConfig).1
        = [("t1", []), ("t2", []), ("t3", [])]
    ∧ (run_single_eval failSecondCaller failFastConfig).2 = false := by
  decide

/-- C2 counterexample: the claim says a present-but-null value is distinct
from an absent path — a presence entry on a null-valued path should pass,
and an expected-null equality entry should fail on an absent path. The
code conflates the two (its resolver returns `None` for both): the
presence check on `{"a": null}` fails, and the expected-null check on `{}`
passes. -/
theorem c2_null_vs_absent_counterexample :
    (ApiCallValidation.validate_response ⟨"jira_search", [], none, some ["a"]⟩
        (.obj [("a", .null)]) = false)
    ∧ (ApiCallValidation.validate_response ⟨"jira_search", [], some [("a", .null)], none⟩
        (.obj []) = true) := by
  decide

/-- C2 amended: a resolved `null` is treated exactly like an absent path.
For every validation and response, a single presence entry fails precisely
when its path resolves to `null`-or-absent, and a single equality entry
expecting `null` passes precisely when its path resolves to
`null`-or-absent (in particular it passes on an absent path). -/
theorem c2_null_conflated_with_absent :
    ∀ (tool : String) (args : List (String × Value)) (r : Value) (p : String),
      (ApiCallValidation.validate_response ⟨tool, args, none, some [p]⟩ r = false
         ↔ get_nested_value r p = Value.null)
      ∧ (ApiCallValidation.validate_response ⟨tool, args, some [(p, Value.null)], none⟩ r = true
         ↔ get_nested_value r p = Value.null) := by
  intro tool args r p
  constructor
  · by_cases h : get_nested_value r p = Value.null <;>
      simp [ApiCallValidation.validate_response, presenceLoop, h]
  · by_cases h : get_nested_value r p = Value.null <;>
      simp [ApiCallValidation.validate_response, fieldsLoop, presenceLoop, h]

/-- C2 witness: the amended theorem applied at a concrete null-valued
path. -/
theorem c2_null_conflated_witness :
    ApiCallValidation.validate_response ⟨"jira_search", [], none, some ["b"]⟩
      (.obj [("b", .null)]) = false :=
  (c2_null_conflated_with_absent "jira_search" [] (.obj [("b", .null)]) "b").1.mpr
    (by decide)

/-- C3: the reconstructed trajectory is, per event in original order, the
concatenation of at most one user message, then at most one tool message,
then at most one assistant message derived from that event, with the
synthetic user message built from the submitted prompt always prepended at
the front regardless of the event stream; the four-event §8 scenario
yields exactly the five expected messages in the order synthetic-user,
user, assistant (tool-call only), tool, assistant (text only). -/
theorem c3_trajectory_message_order :
    (∀ (prompt : String) (ts : Int) (events : List Event),
        (JiraMcpAgent.run prompt ts events).messages
          = synthetic_user_message prompt ts :: (events.map event_messages).flatten)
    ∧ (JiraMcpAgent.run "create issue" 0 scenario_events).messages = scenario_expected
    ∧ scenario_expected.map Message.role
        = [.user, .user, .assistant, .tool, .assistant]
    ∧ scenario_expected.length = 5 := by
  refine ⟨?_, by decide, by decide, by decide⟩
  intro prompt ts events
  show synthetic_user_message prompt ts
        :: (parse_events_to_trajectory events).messages
      = synthetic_user_message prompt ts :: (events.map event_messages).flatten
  rw [parse_events_to_trajectory]
  rw [foldl_appendEventMessages]
  simp

/-- C4: resolution is total (the embedded walker is a total function) and
returns absent — the code's `None`, i.e. `Value.null` — whenever a digit
segment indexes past a sequence's bounds, a digit segment is applied to a
non-sequence, a key segment is missing from a mapping, or a key segment is
applied to a non-mapping; the result is `null` for every continuation
`rest` of the path, i.e. the walk short-circuits at the failing segment. -/
theorem c4_resolution_absent_on_failure :
    ∀ (part : String) (rest : List String),
      (∀ xs : List Value, pyIsDigit part = true → xs.length ≤ pyInt part →
          getNested (.arr xs) (part :: rest) = .null)
      ∧ (∀ t : Value, pyIsDigit part = true → (∀ xs, t ≠ .arr xs) →
          getNested t (part :: rest) = .null)
      ∧ (∀ kvs : List (String × Value), pyIsDigit part = false →
          lookupKey kvs part = none →
          getNested (.obj kvs) (part :: rest) = .null)
      ∧ (∀ t : Value, pyIsDigit part = false → (∀ kvs, t ≠ .obj kvs) →
          getNested t (part :: rest) = .null) := by
  intro part rest
  refine ⟨?_, ?_, ?_, ?_⟩
  · intro xs hd hlen
    have hg : xs[pyInt part]? = none := by
      simp [List.getElem?_eq_none_iff, hlen]
    simp [getNested, hd, hg]
  · intro t hd hne
    cases t with
    | arr xs => exact absurd rfl (hne xs)
    | null => simp [getNested, hd]
    | bool b => simp [getNested, hd]
    | int n => simp [getNested, hd]
    | str s => simp [getNested, hd]
    | obj kvs => simp [getNested, hd]
  · intro kvs hd hlk
    simp [getNested, hd, hlk]
  · intro t hd hne
    cases t with
    | obj kvs => exact absurd rfl (hne kvs)
    | null => simp [getNested, hd]
    | bool b => simp [getNested, hd]
    | int n => simp [getNested, hd]
    | str s => simp [getNested, hd]
    | arr xs => simp [getNested, hd]

/-- C4 witness: the out-of-bounds conjunct applied to index 7 of a
one-element sequence, with a further segment behind it. -/
theorem c4_resolution_witness :
    pyIsDigit "7" = true ∧ ([Value.int 5] : List Value).length ≤ pyInt "7"
    ∧ getNested (.arr [.int 5]) ["7", "x"] = .null :=
  ⟨by decide, by decide,
    (c4_resolution_absent_on_failure "7" ["x"]).1 [.int 5] (by decide) (by decide)⟩

/-- C5: whenever a dot-notation path spec-points to a value `v` in a tree
(digit segments as zero-based sequence indices, other segments as literal
mapping keys), the source resolver returns `v`; and on the §8 example tree,
`"issues.0.status.name"` resolves to `"To Do"` while `"issues.1.summary"`
resolves to absent (the code's `None`, i.e. `Value.null`). -/
theorem c5_resolve_points_to :
    (∀ (t : Value) (path : String) (v : Value),
        pathPointsToStr t path v = true → get_nested_value t path = v)
    ∧ get_nested_value exampleTree "issues.0.status.name" = .str "To Do"
    ∧ get_nested_value exampleTree "issues.1.summary" = .null := by
  refine ⟨?_, by decide, by decide⟩
  intro t path v h
  exact getNested_of_pathPointsTo _ t v h

/-- C5 witness: the refinement conjunct applied to the example tree and the
path `"issues.0.summary"`. -/
theorem c5_resolve_witness :
    get_nested_value exampleTree "issues.0.summary"
      = .str "Discover prompt automation" :=
  c5_resolve_points_to.1 exampleTree "issues.0.summary"
    (.str "Discover prompt automation") (by decide)

/-- C6: `validate_response` passes exactly when every `expected_fields`
entry resolves to its expected value and every `expected_field_presence`
path resolves to non-absent — the conjunction of all entries — and when
both collections are empty (absent or empty) the verdict is always a
pass. -/
theorem c6_verdict_conjunction :
    (∀ (v : ApiCallValidation) (r : Value),
        v.validate_response r = true ↔
          ((∀ pe ∈ v.expected_fields.getD [], get_nested_value r pe.1 = pe.2)
            ∧ (∀ p ∈ v.expected_field_presence.getD [],
                get_nested_value r p ≠ Value.null)))
    ∧ (∀ (tool : String) (args : List (String × Value)) (r : Value),
        ApiCallValidation.validate_response ⟨tool, args, none, none⟩ r = true
        ∧ ApiCallValidation.validate_response ⟨tool, args, some [], some []⟩ r = true) := by
  constructor
  · intro v r
    obtain ⟨tool, args, ef, efp⟩ := v
    rw [validate_response_eq_and]
    cases ef <;> cases efp <;>
      simp [fieldsLoop_eq_true_iff, presenceLoop_eq_true_iff]
  · intro tool args r
    exact ⟨rfl, rfl⟩

/-- C6 witness: the conjunction characterization applied to the §8
evaluator example (expected `{"issues.0.summary": "X"}` against a
response whose `issues[0].summary` is `"X"`). -/
theorem c6_verdict_witness :
    ApiCallValidation.validate_response
      ⟨"jira_search", [], some [("issues.0.summary", .str "X")], none⟩
      (.obj [("issues", .arr [.obj [("summary", .str "X")]])]) = true :=
  (c6_verdict_conjunction.1 ⟨"jira_search", [],
      some [("issues.0.summary", .str "X")], none⟩
    (.obj [("issues", .arr [.obj [("summary", .str "X")]])])).mpr (by decide)

/-- C7 counterexample: the claim says a transport failure is recorded as a
failed verdict for that call and that the remaining calls still run when
`fail_fast` is false. In the code `run_single_eval` has no `try`/`except`
around the call: with `fail_fast = false` and the caller raising on the
first of two calls, the second call is never invoked and the exception
escapes the runner (no per-call verdict is recorded for anything). -/
theorem c7_transport_failure_counterexample :
    (StateValidationConfig.fail_fast
        ⟨[sampleCall "t1", sampleCall "t2"], false⟩ = false)
    ∧ run_single_eval raiseFirstCaller ⟨[sampleCall "t1", sampleCall "t2"], false⟩
        = ([("t1", [])], true) := by
  decide

/-- C7 amended: when the external tool caller fails to complete a
validation call, the raised exception propagates out of `run_single_eval`:
the calls before it are invoked, the failing call is the last one invoked,
the remaining calls are not executed regardless of `fail_fast`, and no
per-call verdict is recorded inside the runner (the error is caught only
at the batch orchestrator, failing the whole case). -/
theorem c7_transport_failure_aborts :
    ∀ (caller : ToolCaller) (ff : Bool) (pre : List ApiCallValidation)
      (v : ApiCallValidation) (post : List ApiCallValidation),
      (∀ u ∈ pre, ∃ r, caller u.tool_name u.arguments = .ok r) →
      caller v.tool_name v.arguments = .error () →
      run_single_eval caller ⟨pre ++ v :: post, ff⟩
        = (pre.map (fun u => (u.tool_name, u.arguments))
            ++ [(v.tool_name, v.arguments)], true) := by
  intro caller ff pre
  induction pre with
  | nil =>
    intro v post hok herr
    simp [run_single_eval, runValidationCalls, herr]
  | cons u pre ih =>
    intro v post hok herr
    obtain ⟨r, hr⟩ := hok u (List.mem_cons_self u pre)
    have hrest := ih v post (fun w hw => hok w (List.mem_cons_of_mem u hw)) herr
    simp only [run_single_eval] at hrest ⊢
    simp only [List.cons_append]
    rw [runValidationCalls]
    simp [hr, hrest, ite_self]

/-- C7 witness: the amended theorem applied to a three-call config whose
caller raises on the second call. -/
theorem c7_transport_failure_witness :
    run_single_eval raiseSecondCaller
        ⟨[sampleCall "t1", sampleCall "t2", sampleCall "t3"], false⟩
      = ([("t1", []), ("t2", [])], true) := by
  have h := c7_transport_failure_aborts raiseSecondCaller false
    [sampleCall "t1"] (sampleCall "t2") [sampleCall "t3"]
    (by intro u hu
        simp only [List.mem_singleton] at hu
        subst hu
        exact ⟨.obj [("ok", .bool true)], rfl⟩)
    rfl
  simpa using h

/-- C8 counterexample: the claim says the batch returns exactly one
outcome record per case. `run_evals` in the source has no `return`
statement — it returns `None` for every batch, so its return value is
identical for a two-case batch in which both cases raise and one in which
both succeed, and cannot carry per-case outcome records; the only per-case
signal is the console log. -/
theorem c8_outcome_records_counterexample :
    (run_evals_return (fun _ : Unit => Except.error ()) [(), ()]
        = run_evals_return (fun _ : Unit => Except.ok ()) [(), ()])
    ∧ run_evals (fun _ : Unit => Except.error ()) [(), ()]
        = [.header 0, .errorCaught 0, .header 1, .errorCaught 1] :=
  ⟨rfl, by decide⟩

/-- C8 amended: every exception raised by a case is caught at the
orchestrator boundary and logged, the remaining cases still run (the log
holds exactly one per-case header for every case of the batch, whatever
raises), the batch never throws, and exactly the raising cases produce a
caught-error log entry; however the batch returns no outcome records —
per-case status is only printed. -/
theorem c8_batch_isolation_logged :
    ∀ (α : Type) (run1 : α → Except Unit Unit) (cases : List α) (i : Nat),
      ((runEvalsLog run1 i cases).countP EvalLogEntry.isHeader = cases.length)
      ∧ ((runEvalsLog run1 i cases).countP EvalLogEntry.isErrorCaught
          = cases.countP (fun c =>
              match run1 c with | .ok _ => false | .error _ => true)) := by
  intro α run1 cases
  induction cases with
  | nil => intro i; simp [runEvalsLog]
  | cons c rest ih =>
    intro i
    cases hc : run1 c with
    | ok u =>
      simp [runEvalsLog, hc, List.countP_cons, (ih (i + 1)).1, (ih (i + 1)).2,
            EvalLogEntry.isHeader, EvalLogEntry.isErrorCaught]
    | error e =>
      simp [runEvalsLog, hc, List.countP_cons, (ih (i + 1)).1, (ih (i + 1)).2,
            EvalLogEntry.isHeader, EvalLogEntry.isErrorCaught]

/-- C8 witness: the amended theorem applied to a two-case batch in which
every case raises: both cases are still processed. -/
theorem c8_batch_isolation_witness :
    (runEvalsLog (fun _ : Unit => Except.error ()) 0 [(), ()]).countP
      EvalLogEntry.isHeader = 2 := by
  have h := (c8_batch_isolation_logged Unit (fun _ => Except.error ()) [(), ()] 0).1
  simpa using h

/-- C9: a reconstructed tool-call result's `is_error` flag is true exactly
when its result body is a mapping containing an `"error"` key — a purely
structural classification, independent of the values stored under the
keys. -/
theorem c9_is_error_structural :
    ∀ (fr : FunctionResponse) (tr : ToolResult),
      create_tool_result fr = some tr →
      (tr.is_error = true
        ↔ ∃ kvs, tr.result_data = Value.obj kvs ∧ "error" ∈ kvs.map Prod.fst) := by
  intro fr tr h
  obtain ⟨id, name, resp⟩ := fr
  cases name with
  | none => simp [create_tool_result] at h
  | some n =>
    cases resp with
    | none => simp [create_tool_result] at h
    | some rv =>
      simp only [create_tool_result] at h
      injection h with h
      subst h
      cases rv with
      | obj kvs => simp [lookupKey_isSome_iff]
      | null => simp
      | bool b => simp
      | int n2 => simp
      | str s => simp
      | arr xs => simp

/-- C9 witness: the structural rule applied to a response whose body is a
mapping with an `"error"` key. -/
theorem c9_is_error_witness :
    ∃ tr, create_tool_result errorResponse = some tr ∧ tr.is_error = true := by
  refine ⟨{ name := "jira_search", result_data := .obj [("error", .str "boom")],
            is_error := true }, by decide, ?_⟩
  exact (c9_is_error_structural errorResponse _ (by decide)).mpr
    ⟨[("error", .str "boom")], by decide, by decide⟩

/-- C10: an event all of whose tool-invocation response parts are
malformed (each missing its name or its result body) contributes no tool
message at all, and a tool message, when produced, never carries an empty
result list. -/
theorem c10_malformed_drops_tool_message :
    ∀ (event : Event),
      ((∀ fr ∈ event.get_function_responses, fr.name = none ∨ fr.response = none) →
          process_tool_responses event = none)
      ∧ (∀ m, process_tool_responses event = some m →
          ∃ rs, m.tool_results = some rs ∧ rs ≠ []) := by
  intro event
  constructor
  · intro hmal
    have hnone : ∀ fr ∈ event.get_function_responses, create_tool_result fr = none := by
      intro fr hfr
      rcases hmal fr hfr with h | h
      · simp [create_tool_result, h]
      · cases hn : fr.name <;> simp [create_tool_result, h, hn]
    by_cases he : event.get_function_responses.isEmpty
    · simp [process_tool_responses, he]
    · have hnil : event.get_function_responses.filterMap create_tool_result = [] :=
        List.filterMap_eq_nil_iff.mpr hnone
      simp [process_tool_responses, he, hnil]
  · intro m hm
    by_cases he : event.get_function_responses.isEmpty
    · simp [process_tool_responses, he] at hm
    · by_cases ht : (event.get_function_responses.filterMap create_tool_result).isEmpty
      · simp [process_tool_responses, he, ht] at hm
      · simp only [process_tool_responses, he, ht, if_false, Bool.false_eq_true] at hm
        injection hm with hm
        refine ⟨event.get_function_responses.filterMap create_tool_result, ?_, ?_⟩
        · rw [← hm]
        · simpa [List.isEmpty_iff] using ht

/-- C10 witness: the malformed-responses conjunct applied to an event
whose only response part has a body but no name. -/
theorem c10_malformed_witness :
    process_tool_responses malformedResponseEvent = none :=
  (c10_malformed_drops_tool_message malformedResponseEvent).1 (by decide)
